import Mathlib

/-!
# Verification of the tsuniqid unique-ID generator

Shallow embedding of `uniqid.go` from the `tinystack/tsuniqid` repository.
Machine integers are modelled as `Nat` with explicit `% 2^64` (Go `uint64`
wrap-around) where overflow matters.  External effects (clock reads, the
hostname / local-IP lookups, and `math/rand` draws) are passed in as explicit
parameters: a lookup result is an `Option String` (`none` = the Go call
returned an error) and a random stream is a function `Nat → Nat`.
-/

namespace Tsuniqid

/-- Go `uint64` modulus. -/
def U64 : Nat := 2 ^ 64

/-- 32-bit modulus, used by the SHA-1 model. -/
def U32 : Nat := 2 ^ 32

/-! ## Bit allocation constants (`uniqid.go`, `const` block) -/

/-- `MaxMachineID = 0xf` (4 bits). -/
def MaxMachineID : Nat := 0xf

/-- `MaxInstanceID = 0xf` (4 bits). -/
def MaxInstanceID : Nat := 0xf

/-- `MaxCounter = 0x3fff` (14 bits). -/
def MaxCounter : Nat := 0x3fff

/-- `MaxTimestamp = 0x3ffffffffff` (42 bits). -/
def MaxTimestamp : Nat := 0x3ffffffffff

/-- `RandomSuffixLength = 8`. -/
def RandomSuffixLength : Nat := 8

/-- `CharSet = "0123456789abcdefghijklmnopqrstuvwxyz"`. -/
def CharSet : String := "0123456789abcdefghijklmnopqrstuvwxyz"

/-- `TimestampShift = 14`. -/
def TimestampShift : Nat := 14

/-- `InstanceIDShift = 56`. -/
def InstanceIDShift : Nat := 56

/-- `MachineIDShift = 60`. -/
def MachineIDShift : Nat := 60

/-- `CharSet` as a list of characters; Go indexes the string by byte and all
characters of `CharSet` are ASCII. -/
def charSetChars : List Char := CharSet.data

/-! ## SHA-1 (model of Go's `crypto/sha1`, used by `hashToUint64`)

`crypto/sha1` implements FIPS 180 SHA-1; the definitions below are that
algorithm on byte lists, with 32-bit words as `Nat` reduced `% U32`. -/

/-- 32-bit left rotation (for `x < 2^32`). -/
def rotl32 (x n : Nat) : Nat := ((x <<< n) ||| (x >>> (32 - n))) % U32

/-- Big-endian 8-byte encoding of a 64-bit value. -/
def be64bytes (n : Nat) : List Nat :=
  [(n >>> 56) % 256, (n >>> 48) % 256, (n >>> 40) % 256, (n >>> 32) % 256,
   (n >>> 24) % 256, (n >>> 16) % 256, (n >>> 8) % 256, n % 256]

/-- Big-endian 4-byte encoding of a 32-bit value. -/
def be32bytes (n : Nat) : List Nat :=
  [(n >>> 24) % 256, (n >>> 16) % 256, (n >>> 8) % 256, n % 256]

/-- SHA-1 message padding: append `0x80`, zero bytes up to 56 mod 64, then the
big-endian 64-bit bit length. -/
def sha1Pad (msg : List Nat) : List Nat :=
  let len := msg.length
  let zeros := (119 - len % 64) % 64
  msg ++ 0x80 :: (List.replicate zeros 0 ++ be64bytes (len * 8))

/-- Big-endian grouping of bytes into 32-bit words. -/
def bytesToWords : List Nat → List Nat
  | a :: b :: c :: d :: rest => (((a * 256 + b) * 256 + c) * 256 + d) :: bytesToWords rest
  | _ => []

/-- SHA-1 message-schedule extension of the 16 block words to 80 words. -/
def sha1Extend (ws : List Nat) : List Nat :=
  (List.range 64).foldl
    (fun acc _ =>
      let n := acc.length
      acc ++ [rotl32 ((acc.getD (n - 3) 0) ^^^ (acc.getD (n - 8) 0) ^^^
                      (acc.getD (n - 14) 0) ^^^ (acc.getD (n - 16) 0)) 1])
    ws

/-- SHA-1 round function `f_t`. -/
def sha1F (t b c d : Nat) : Nat :=
  if t < 20 then (b &&& c) ||| ((b ^^^ 0xffffffff) &&& d)
  else if t < 40 then b ^^^ c ^^^ d
  else if t < 60 then (b &&& c) ||| (b &&& d) ||| (c &&& d)
  else b ^^^ c ^^^ d

/-- SHA-1 round constant `K_t`. -/
def sha1K (t : Nat) : Nat :=
  if t < 20 then 0x5A827999
  else if t < 40 then 0x6ED9EBA1
  else if t < 60 then 0x8F1BBCDC
  else 0xCA62C1D6

/-- The 80 SHA-1 rounds over one block's schedule. -/
def sha1Rounds (st : Nat × Nat × Nat × Nat × Nat) (w : List Nat) :
    Nat × Nat × Nat × Nat × Nat :=
  ((List.range 80).zip w).foldl
    (fun st tw =>
      match st, tw with
      | (a, b, c, d, e), (t, wt) =>
        ((rotl32 a 5 + sha1F t b c d + e + sha1K t + wt) % U32,
         a, rotl32 b 30, c, d))
    st

/-- SHA-1 compression of one 64-byte block into the running state. -/
def sha1Compress (h : Nat × Nat × Nat × Nat × Nat) (block : List Nat) :
    Nat × Nat × Nat × Nat × Nat :=
  let w := sha1Extend (bytesToWords block)
  match h, sha1Rounds h w with
  | (h0, h1, h2, h3, h4), (a, b, c, d, e) =>
    ((h0 + a) % U32, (h1 + b) % U32, (h2 + c) % U32, (h3 + d) % U32, (h4 + e) % U32)

/-- Split a byte list into 64-byte blocks (fuel-driven; `fuel ≥ length` suffices). -/
def splitBlocks : Nat → List Nat → List (List Nat)
  | 0, _ => []
  | _, [] => []
  | fuel + 1, l => l.take 64 :: splitBlocks fuel (l.drop 64)

/-- SHA-1 digest (20 bytes) of a byte list. -/
def sha1 (msg : List Nat) : List Nat :=
  let padded := sha1Pad msg
  let blocks := splitBlocks padded.length padded
  match blocks.foldl sha1Compress
      (0x67452301, 0xEFCDAB89, 0x98BADCFE, 0x10325476, 0xC3D2E1F0) with
  | (h0, h1, h2, h3, h4) =>
    be32bytes h0 ++ be32bytes h1 ++ be32bytes h2 ++ be32bytes h3 ++ be32bytes h4

/-! ## hashToUint64 and the machine-ID derivation (`uniqid.go`) -/

/-- Bytes of a Go string (all strings reaching the hash here are ASCII). -/
def strBytes (s : String) : List Nat := s.data.map Char.toNat

/-- `binary.BigEndian.Uint64` on a byte list. -/
def beUint64 (bs : List Nat) : Nat := bs.foldl (fun a b => a * 256 + b) 0

/-- `hashToUint64`: SHA-1 the input and read the last 8 digest bytes as a
big-endian `uint64` (with the short-digest zero-padding fallback of the code). -/
def hashToUint64 (input : String) : Nat :=
  let hashBytes := sha1 (strBytes input)
  if 8 ≤ hashBytes.length then
    beUint64 (hashBytes.drop (hashBytes.length - 8))
  else
    beUint64 (List.replicate (8 - hashBytes.length) 0 ++ hashBytes)

/-- `generateFallbackString`: `length` draws of `CharSet[rng.Intn(36)]`, with
`rand.Intn len` modelled as `r i % len` (its value is always in `[0, len)`). -/
def generateFallbackString (r : Nat → Nat) (length : Nat) : String :=
  String.mk ((List.range length).map fun i => charSetChars.getD (r i % charSetChars.length) ' ')

/-- `generateMachineID`: hostname (falling back to a random 10-char string on
error or empty result) concatenated with the local-IP string (falling back the
same way on error), hashed by `hashToUint64`.  `hostnameRes`/`ipRes` are the
outcomes of `os.Hostname()` / `getLocalIP().String()`. -/
def generateMachineID (hostnameRes ipRes : Option String) (rHost rIP : Nat → Nat) : Nat :=
  let hostname :=
    match hostnameRes with
    | some h => if h = "" then generateFallbackString rHost 10 else h
    | none => generateFallbackString rHost 10
  let ipStr :=
    match ipRes with
    | some s => s
    | none => generateFallbackString rIP 10
  hashToUint64 (hostname ++ ipStr)

/-! ## The generator (`IDGenerator`) and its operations -/

/-- `IDGenerator`: machine ID, instance ID, atomic counter, and the
mutex-protected local random stream. -/
structure IDGenerator where
  machineID : Nat
  instanceID : Nat
  counter : Nat
  rng : Nat → Nat

/-- `NewGenerator`: atomically increment the process-wide
`globalInstanceCounter` (passed in as its prior value, returned incremented)
and truncate to 4 bits for the instance ID; derive and truncate the machine ID;
start the counter at 0. -/
def newGenerator (hostnameRes ipRes : Option String) (rHost rIP : Nat → Nat)
    (globalInstanceCounter : Nat) (rng : Nat → Nat) : IDGenerator × Nat :=
  let newCounter := (globalInstanceCounter + 1) % U64
  let instanceID := newCounter &&& MaxInstanceID
  ({ machineID := generateMachineID hostnameRes ipRes rHost rIP &&& MaxMachineID
     instanceID := instanceID
     counter := 0
     rng := rng }, newCounter)

/-- `nextCounter`: `atomic.AddUint64(&g.counter, 1)` — increment (with `uint64`
wrap) and return the new value together with the updated generator. -/
def nextCounter (g : IDGenerator) : Nat × IDGenerator :=
  let c := (g.counter + 1) % U64
  (c, { g with counter := c })

/-- `GenerateUint64ID`: take the next counter value and the millisecond
timestamp, and pack
`(machineID << 60) | (instanceID << 56) | ((ts & MaxTimestamp) << 14) | (counter & MaxCounter)`
in `uint64` arithmetic. -/
def generateUint64ID (g : IDGenerator) (timestamp : Nat) : Nat × IDGenerator :=
  (((g.machineID <<< MachineIDShift) % U64) |||
   ((g.instanceID <<< InstanceIDShift) % U64) |||
   (((timestamp &&& MaxTimestamp) <<< TimestampShift) % U64) |||
   ((nextCounter g).1 &&& MaxCounter),
   (nextCounter g).2)

/-- `generateRandomSuffix`: `length` draws of `CharSet[g.rng.Intn(36)]` under
the generator's mutex; the returned generator's stream is advanced past the
consumed draws. -/
def generateRandomSuffix (g : IDGenerator) (length : Nat) : String × IDGenerator :=
  (String.mk ((List.range length).map fun i => charSetChars.getD (g.rng i % charSetChars.length) ' '),
   { g with rng := fun i => g.rng (i + length) })

/-- Digits of `strconv.FormatUint(·, 16)`: minimal-length base-16, digit table
`"0123456789abcdefghijklmnopqrstuvwxyz"` (strconv's table, an initial segment
of `CharSet`). -/
def toHexDigits (n : Nat) : List Char :=
  if n < 16 then [charSetChars.getD n ' ']
  else toHexDigits (n / 16) ++ [charSetChars.getD (n % 16) ' ']
decreasing_by exact Nat.div_lt_self (by omega) (by omega)

/-- `strconv.FormatUint(n, 16)`. -/
def formatUint16 (n : Nat) : String := String.mk (toHexDigits n)

/-- The sixteen base-16 digits accepted by `strconv.ParseUint(·, 16, 64)`
(lower case, the case `FormatUint` emits): the first 16 symbols of strconv's
digit table, which is the same `0-9a-z` table as `CharSet`. -/
def hexDigits : List Char := charSetChars.take 16

/-- The numeric value of a base-16 digit character, `none` when invalid. -/
def hexDigitValue (c : Char) : Option Nat := hexDigits.indexOf? c

/-- Whether a character is a valid lower-case base-16 digit. -/
def isHexDigitChar (c : Char) : Bool := (hexDigitValue c).isSome

/-- The value of a base-16 digit string (the accumulator loop of a base-16
unsigned parse; meaningful when every character is a valid digit). -/
def hexToNat (cs : List Char) : Nat :=
  cs.foldl (fun acc c => acc * 16 + (hexDigitValue c).getD 0) 0

/-- `GenerateStringID`: the hex encoding of a fresh `uint64` ID followed by the
8-character random suffix. -/
def generateStringID (g : IDGenerator) (timestamp : Nat) : String × IDGenerator :=
  (formatUint16 (generateUint64ID g timestamp).1 ++
     (generateRandomSuffix (generateUint64ID g timestamp).2 RandomSuffixLength).1,
   (generateRandomSuffix (generateUint64ID g timestamp).2 RandomSuffixLength).2)

/-! ## Documented field extraction and re-packing

The shift-and-mask extraction documented in the README / `GenerateUint64ID`
doc comment, and re-packing with the documented shifts. -/

/-- `(id >> 60) & 0xf`. -/
def extractMachineID (id : Nat) : Nat := (id >>> MachineIDShift) &&& MaxMachineID

/-- `(id >> 56) & 0xf`. -/
def extractInstanceID (id : Nat) : Nat := (id >>> InstanceIDShift) &&& MaxInstanceID

/-- `(id >> 14) & 0x3ffffffffff`. -/
def extractTimestamp (id : Nat) : Nat := (id >>> TimestampShift) &&& MaxTimestamp

/-- `id & 0x3fff`. -/
def extractCounter (id : Nat) : Nat := id &&& MaxCounter

/-- Re-packing with the documented shifts. -/
def repackID (m i t c : Nat) : Nat :=
  (m <<< MachineIDShift) ||| (i <<< InstanceIDShift) ||| (t <<< TimestampShift) ||| c

/-! ## Linearized call traces

`nextCounter` is a single atomic fetch-and-add, so concurrent calls to one
generator linearize: the k-th call in fetch-add order observes counter value
`initial + k + 1 (mod 2^64)` and some timestamp reading `ts (k + 1)`.
`genTrace` runs `n` such calls; `nthId` is the closed form of the k-th ID. -/

/-- Run `n` successive `GenerateUint64ID` calls; call number `k` (1-based)
reads timestamp `ts k`. -/
def genTrace (g : IDGenerator) (ts : Nat → Nat) : Nat → List Nat × IDGenerator
  | 0 => ([], g)
  | n + 1 =>
    ((genTrace g ts n).1 ++ [(generateUint64ID (genTrace g ts n).2 (ts (n + 1))).1],
     (generateUint64ID (genTrace g ts n).2 (ts (n + 1))).2)

/-- Closed form of the ID produced by the (0-based) k-th call of a trace. -/
def nthId (g : IDGenerator) (ts : Nat → Nat) (k : Nat) : Nat :=
  (generateUint64ID { g with counter := (g.counter + k) % U64 } (ts (k + 1))).1

/-- The process-wide `globalInstanceCounter` (Go zero value `0` at process
start) after `n` `NewGenerator` constructions; each construction stores back
the incremented value. -/
def nthGeneratorCounter : Nat → Nat
  | 0 => 0
  | n + 1 => (nthGeneratorCounter n + 1) % U64

/-- A `NewGenerator`-built generator in an arbitrary reachable mutable state:
its counter after some number of calls is `c`, its random stream advanced to
`r`; the discriminators are fixed at construction. -/
def reachableGenerator (hostnameRes ipRes : Option String) (rHost rIP : Nat → Nat)
    (gc : Nat) (rng : Nat → Nat) (c : Nat) (r : Nat → Nat) : IDGenerator :=
  { (newGenerator hostnameRes ipRes rHost rIP gc rng).1 with counter := c, rng := r }

/-! ## Arithmetic helper lemmas -/

theorem lor_eq_add_of_lt {b : Nat} (n : Nat) (a : Nat) (hb : b < 2 ^ n) :
    (a * 2 ^ n) ||| b = a * 2 ^ n + b := by
  rw [Nat.mul_comm a (2 ^ n), ← Nat.mul_add_lt_is_or hb a]

theorem and_0xf (x : Nat) : x &&& 0xf = x % 16 :=
  Nat.and_pow_two_sub_one_eq_mod x 4

theorem and_0x3fff (x : Nat) : x &&& 0x3fff = x % 2 ^ 14 :=
  Nat.and_pow_two_sub_one_eq_mod x 14

theorem and_maxTimestamp (x : Nat) : x &&& 0x3ffffffffff = x % 2 ^ 42 :=
  Nat.and_pow_two_sub_one_eq_mod x 42

/-- The packed OR of the four bounded fields is their weighted sum. -/
theorem pack_eq_add {m i t c : Nat} (hm : m < 16) (hi : i < 16)
    (ht : t < 2 ^ 42) (hc : c < 2 ^ 14) :
    (m <<< 60) ||| (i <<< 56) ||| (t <<< 14) ||| c
      = m * 2 ^ 60 + i * 2 ^ 56 + t * 2 ^ 14 + c := by
  have h1 : (m <<< 60) ||| (i <<< 56) = m * 2 ^ 60 + i * 2 ^ 56 := by
    rw [Nat.shiftLeft_eq, Nat.shiftLeft_eq]
    have hb : i * 2 ^ 56 < 2 ^ 60 := by
      calc i * 2 ^ 56 < 16 * 2 ^ 56 := by
            exact mul_lt_mul_of_pos_right hi (by positivity)
        _ = 2 ^ 60 := by norm_num
    exact lor_eq_add_of_lt 60 m hb
  have h2 : (m * 2 ^ 60 + i * 2 ^ 56) ||| (t <<< 14)
      = m * 2 ^ 60 + i * 2 ^ 56 + t * 2 ^ 14 := by
    rw [Nat.shiftLeft_eq]
    have he : m * 2 ^ 60 + i * 2 ^ 56 = (m * 16 + i) * 2 ^ 56 := by ring
    have hb : t * 2 ^ 14 < 2 ^ 56 := by
      calc t * 2 ^ 14 < 2 ^ 42 * 2 ^ 14 := by
            exact mul_lt_mul_of_pos_right ht (by positivity)
        _ = 2 ^ 56 := by norm_num
    rw [he, lor_eq_add_of_lt 56 (m * 16 + i) hb]
  have h3 : (m * 2 ^ 60 + i * 2 ^ 56 + t * 2 ^ 14) ||| c
      = m * 2 ^ 60 + i * 2 ^ 56 + t * 2 ^ 14 + c := by
    have he : m * 2 ^ 60 + i * 2 ^ 56 + t * 2 ^ 14
        = ((m * 16 + i) * 2 ^ 42 + t) * 2 ^ 14 := by ring
    rw [he, lor_eq_add_of_lt 14 ((m * 16 + i) * 2 ^ 42 + t) hc]
  rw [h1, h2, h3]

/-- Additive closed form of `GenerateUint64ID` for in-range discriminators. -/
theorem generateUint64ID_fst (g : IDGenerator) (ts : Nat)
    (hm : g.machineID < 16) (hi : g.instanceID < 16) :
    (generateUint64ID g ts).1 =
      g.machineID * 2 ^ 60 + g.instanceID * 2 ^ 56 +
        (ts % 2 ^ 42) * 2 ^ 14 + (g.counter + 1) % 2 ^ 14 := by
  have hb1 : g.machineID <<< 60 < 2 ^ 64 := by
    rw [Nat.shiftLeft_eq]
    calc g.machineID * 2 ^ 60 < 16 * 2 ^ 60 := mul_lt_mul_of_pos_right hm (by positivity)
      _ = 2 ^ 64 := by norm_num
  have hb2 : g.instanceID <<< 56 < 2 ^ 64 := by
    rw [Nat.shiftLeft_eq]
    calc g.instanceID * 2 ^ 56 < 16 * 2 ^ 56 := mul_lt_mul_of_pos_right hi (by positivity)
      _ ≤ 2 ^ 64 := by norm_num
  have hb3 : (ts % 2 ^ 42) <<< 14 < 2 ^ 64 := by
    rw [Nat.shiftLeft_eq]
    calc ts % 2 ^ 42 * 2 ^ 14 < 2 ^ 42 * 2 ^ 14 :=
          mul_lt_mul_of_pos_right (Nat.mod_lt _ (by positivity)) (by positivity)
      _ ≤ 2 ^ 64 := by norm_num
  show (g.machineID <<< 60) % 2 ^ 64 ||| (g.instanceID <<< 56) % 2 ^ 64 |||
      ((ts &&& 0x3ffffffffff) <<< 14) % 2 ^ 64 ||| ((g.counter + 1) % 2 ^ 64 &&& 0x3fff) = _
  rw [Nat.mod_eq_of_lt hb1, Nat.mod_eq_of_lt hb2, and_maxTimestamp, Nat.mod_eq_of_lt hb3,
    and_0x3fff, Nat.mod_mod_of_dvd _ (pow_dvd_pow 2 (by norm_num))]
  exact pack_eq_add hm hi (Nat.mod_lt _ (by positivity)) (Nat.mod_lt _ (by positivity))

/-- Field extraction from the additive form recovers each component. -/
theorem extract_of_add {m i t c : Nat} (hm : m < 16) (hi : i < 16)
    (ht : t < 2 ^ 42) (hc : c < 2 ^ 14) :
    extractMachineID (m * 2 ^ 60 + i * 2 ^ 56 + t * 2 ^ 14 + c) = m ∧
    extractInstanceID (m * 2 ^ 60 + i * 2 ^ 56 + t * 2 ^ 14 + c) = i ∧
    extractTimestamp (m * 2 ^ 60 + i * 2 ^ 56 + t * 2 ^ 14 + c) = t ∧
    extractCounter (m * 2 ^ 60 + i * 2 ^ 56 + t * 2 ^ 14 + c) = c := by
  unfold extractMachineID extractInstanceID extractTimestamp extractCounter
  unfold MachineIDShift InstanceIDShift TimestampShift MaxMachineID MaxInstanceID
    MaxTimestamp MaxCounter
  rw [Nat.shiftRight_eq_div_pow, Nat.shiftRight_eq_div_pow, Nat.shiftRight_eq_div_pow,
    and_0xf, and_0xf, and_maxTimestamp, and_0x3fff]
  refine ⟨?_, ?_, ?_, ?_⟩ <;> omega

theorem repackID_eq {m i t c : Nat} (hm : m < 16) (hi : i < 16)
    (ht : t < 2 ^ 42) (hc : c < 2 ^ 14) :
    repackID m i t c = m * 2 ^ 60 + i * 2 ^ 56 + t * 2 ^ 14 + c :=
  pack_eq_add hm hi ht hc

/-! ## Generator-construction and trace lemmas -/

theorem newGenerator_machineID (hostnameRes ipRes : Option String) (rHost rIP : Nat → Nat)
    (gc : Nat) (rng : Nat → Nat) :
    (newGenerator hostnameRes ipRes rHost rIP gc rng).1.machineID =
      generateMachineID hostnameRes ipRes rHost rIP % 16 :=
  and_0xf _

theorem newGenerator_machineID_lt (hostnameRes ipRes : Option String) (rHost rIP : Nat → Nat)
    (gc : Nat) (rng : Nat → Nat) :
    (newGenerator hostnameRes ipRes rHost rIP gc rng).1.machineID < 16 := by
  rw [newGenerator_machineID]
  exact Nat.mod_lt _ (by norm_num)

theorem newGenerator_instanceID (hostnameRes ipRes : Option String) (rHost rIP : Nat → Nat)
    (gc : Nat) (rng : Nat → Nat) :
    (newGenerator hostnameRes ipRes rHost rIP gc rng).1.instanceID = ((gc + 1) % U64) % 16 :=
  and_0xf _

theorem newGenerator_instanceID_lt (hostnameRes ipRes : Option String) (rHost rIP : Nat → Nat)
    (gc : Nat) (rng : Nat → Nat) :
    (newGenerator hostnameRes ipRes rHost rIP gc rng).1.instanceID < 16 := by
  rw [newGenerator_instanceID]
  exact Nat.mod_lt _ (by norm_num)

theorem newGenerator_counter (hostnameRes ipRes : Option String) (rHost rIP : Nat → Nat)
    (gc : Nat) (rng : Nat → Nat) :
    (newGenerator hostnameRes ipRes rHost rIP gc rng).1.counter = 0 := rfl

theorem newGenerator_snd (hostnameRes ipRes : Option String) (rHost rIP : Nat → Nat)
    (gc : Nat) (rng : Nat → Nat) :
    (newGenerator hostnameRes ipRes rHost rIP gc rng).2 = (gc + 1) % U64 := rfl

theorem genTrace_length (g : IDGenerator) (ts : Nat → Nat) :
    ∀ n, (genTrace g ts n).1.length = n
  | 0 => rfl
  | n + 1 => by
    show ((genTrace g ts n).1 ++ [_]).length = n + 1
    rw [List.length_append, genTrace_length g ts n]
    rfl

theorem genTrace_snd (g : IDGenerator) (ts : Nat → Nat) (hg : g.counter < U64) :
    ∀ n, (genTrace g ts n).2 = { g with counter := (g.counter + n) % U64 }
  | 0 => by
    show g = { g with counter := (g.counter + 0) % U64 }
    have h : (g.counter + 0) % U64 = g.counter := by
      rw [Nat.add_zero, Nat.mod_eq_of_lt hg]
    rw [h]
  | n + 1 => by
    show (generateUint64ID (genTrace g ts n).2 (ts (n + 1))).2 = _
    rw [genTrace_snd g ts hg n]
    show { g with counter := ((g.counter + n) % U64 + 1) % U64 } =
      { g with counter := (g.counter + (n + 1)) % U64 }
    have h : ((g.counter + n) % U64 + 1) % U64 = (g.counter + (n + 1)) % U64 := by
      show ((g.counter + n) % 2 ^ 64 + 1) % 2 ^ 64 = (g.counter + (n + 1)) % 2 ^ 64
      omega
    rw [h]

theorem genTrace_get (g : IDGenerator) (ts : Nat → Nat) (hg : g.counter < U64) :
    ∀ n k, k < n → (genTrace g ts n).1.get? k = some (nthId g ts k)
  | 0, k, h => absurd h (Nat.not_lt_zero k)
  | n + 1, k, h => by
    show ((genTrace g ts n).1 ++
      [(generateUint64ID (genTrace g ts n).2 (ts (n + 1))).1]).get? k = _
    rcases Nat.lt_or_ge k n with hk | hk
    · rw [List.get?_append (by rw [genTrace_length]; exact hk)]
      exact genTrace_get g ts hg n k hk
    · have hkn : k = n := by omega
      subst hkn
      have hcat := List.get?_concat_length (genTrace g ts k).1
        ((generateUint64ID (genTrace g ts k).2 (ts (k + 1))).1)
      rw [genTrace_length g ts k] at hcat
      rw [hcat, genTrace_snd g ts hg k]
      rfl

/-- Additive closed form of the k-th ID of a trace started at a fresh counter. -/
theorem nthId_eq (g : IDGenerator) (ts : Nat → Nat) (k : Nat)
    (hm : g.machineID < 16) (hi : g.instanceID < 16) (hg : g.counter = 0) (hk : k < U64) :
    nthId g ts k = g.machineID * 2 ^ 60 + g.instanceID * 2 ^ 56 +
      (ts (k + 1) % 2 ^ 42) * 2 ^ 14 + (k + 1) % 2 ^ 14 := by
  unfold nthId
  rw [generateUint64ID_fst { g with counter := (g.counter + k) % U64 } (ts (k + 1)) hm hi]
  show g.machineID * 2 ^ 60 + g.instanceID * 2 ^ 56 +
      (ts (k + 1) % 2 ^ 42) * 2 ^ 14 + ((g.counter + k) % U64 + 1) % 2 ^ 14 = _
  rw [hg, Nat.zero_add, Nat.mod_eq_of_lt hk]

/-! ## Claim theorems -/

/-- C2: for every identifier produced by `GenerateUint64ID` of a
`NewGenerator`-built generator, extracting the machine, instance, timestamp and
sequence fields by the documented shift-and-mask and re-packing them with the
documented shifts reproduces the original 64-bit value exactly. -/
theorem extract_repack_roundtrip (hostnameRes ipRes : Option String) (rHost rIP : Nat → Nat)
    (gc : Nat) (rng : Nat → Nat) (ts : Nat → Nat) (k : Nat) :
    repackID
      (extractMachineID (nthId (newGenerator hostnameRes ipRes rHost rIP gc rng).1 ts k))
      (extractInstanceID (nthId (newGenerator hostnameRes ipRes rHost rIP gc rng).1 ts k))
      (extractTimestamp (nthId (newGenerator hostnameRes ipRes rHost rIP gc rng).1 ts k))
      (extractCounter (nthId (newGenerator hostnameRes ipRes rHost rIP gc rng).1 ts k))
      = nthId (newGenerator hostnameRes ipRes rHost rIP gc rng).1 ts k := by
  have hm := newGenerator_machineID_lt hostnameRes ipRes rHost rIP gc rng
  have hi := newGenerator_instanceID_lt hostnameRes ipRes rHost rIP gc rng
  have hadd : nthId (newGenerator hostnameRes ipRes rHost rIP gc rng).1 ts k =
      (newGenerator hostnameRes ipRes rHost rIP gc rng).1.machineID * 2 ^ 60 +
        (newGenerator hostnameRes ipRes rHost rIP gc rng).1.instanceID * 2 ^ 56 +
        (ts (k + 1) % 2 ^ 42) * 2 ^ 14 +
        (((newGenerator hostnameRes ipRes rHost rIP gc rng).1.counter + k) % U64 + 1) % 2 ^ 14 := by
    unfold nthId
    exact generateUint64ID_fst _ _ hm hi
  have ht : ts (k + 1) % 2 ^ 42 < 2 ^ 42 := Nat.mod_lt _ (by positivity)
  have hc : (((newGenerator hostnameRes ipRes rHost rIP gc rng).1.counter + k) % U64 + 1) % 2 ^ 14
      < 2 ^ 14 := Nat.mod_lt _ (by positivity)
  obtain ⟨e1, e2, e3, e4⟩ := extract_of_add hm hi ht hc
  rw [hadd, e1, e2, e3, e4, repackID_eq hm hi ht hc]

/-- C5: for every generator produced by `NewGenerator` and every identifier it
produces, the machine and instance discriminator fields of the packed value lie
in `[0, 15]`, and the sequence field lies in `[0, 16383]` (and the stored
discriminators themselves are in range). -/
theorem field_range_containment (hostnameRes ipRes : Option String) (rHost rIP : Nat → Nat)
    (gc : Nat) (rng : Nat → Nat) (ts : Nat → Nat) (k : Nat) :
    (newGenerator hostnameRes ipRes rHost rIP gc rng).1.machineID ≤ 15 ∧
    (newGenerator hostnameRes ipRes rHost rIP gc rng).1.instanceID ≤ 15 ∧
    extractMachineID (nthId (newGenerator hostnameRes ipRes rHost rIP gc rng).1 ts k) ≤ 15 ∧
    extractInstanceID (nthId (newGenerator hostnameRes ipRes rHost rIP gc rng).1 ts k) ≤ 15 ∧
    extractCounter (nthId (newGenerator hostnameRes ipRes rHost rIP gc rng).1 ts k) ≤ 16383 := by
  refine ⟨?_, ?_, ?_, ?_, ?_⟩
  · have := newGenerator_machineID_lt hostnameRes ipRes rHost rIP gc rng
    omega
  · have := newGenerator_instanceID_lt hostnameRes ipRes rHost rIP gc rng
    omega
  · have h := and_0xf ((nthId (newGenerator hostnameRes ipRes rHost rIP gc rng).1 ts k) >>> 60)
    have := Nat.mod_lt ((nthId (newGenerator hostnameRes ipRes rHost rIP gc rng).1 ts k) >>> 60)
      (y := 16) (by norm_num)
    unfold extractMachineID MachineIDShift MaxMachineID
    omega
  · have h := and_0xf ((nthId (newGenerator hostnameRes ipRes rHost rIP gc rng).1 ts k) >>> 56)
    have := Nat.mod_lt ((nthId (newGenerator hostnameRes ipRes rHost rIP gc rng).1 ts k) >>> 56)
      (y := 16) (by norm_num)
    unfold extractInstanceID InstanceIDShift MaxInstanceID
    omega
  · have h := and_0x3fff (nthId (newGenerator hostnameRes ipRes rHost rIP gc rng).1 ts k)
    have := Nat.mod_lt (nthId (newGenerator hostnameRes ipRes rHost rIP gc rng).1 ts k)
      (y := 2 ^ 14) (by positivity)
    unfold extractCounter MaxCounter
    omega

/-- C3: `GenerateUint64ID` computes exactly
`(machineID << 60) | (instanceID << 56) | ((timestamp mod 2^42) << 14) | (sequence mod 2^14)`
in `uint64` arithmetic, where `sequence` is the counter value obtained for the
call; in particular with machine discriminator `0x3`, instance discriminator
`0x1`, timestamp `1700000000000` ms and sequence value `1`, the packed
identifier equals `(0x3<<60)|(0x1<<56)|((1700000000000 mod 2^42)<<14)|(1 mod 2^14)`. -/
theorem pack_formula_and_example :
    (∀ (g : IDGenerator) (ts : Nat),
      (generateUint64ID g ts).1 =
        ((g.machineID <<< 60) % 2 ^ 64) ||| ((g.instanceID <<< 56) % 2 ^ 64) |||
          (((ts % 2 ^ 42) <<< 14) % 2 ^ 64) ||| ((g.counter + 1) % 2 ^ 64 % 2 ^ 14)) ∧
    (generateUint64ID ⟨0x3, 0x1, 0, fun n => n⟩ 1700000000000).1 =
      ((0x3 <<< 60) ||| (0x1 <<< 56) ||| ((1700000000000 % 2 ^ 42) <<< 14) ||| (1 % 2 ^ 14)) := by
  constructor
  · intro g ts
    show ((g.machineID <<< 60) % 2 ^ 64) ||| ((g.instanceID <<< 56) % 2 ^ 64) |||
        (((ts &&& 0x3ffffffffff) <<< 14) % 2 ^ 64) ||| ((g.counter + 1) % 2 ^ 64 &&& 0x3fff) = _
    rw [and_maxTimestamp, and_0x3fff]
  · decide

/-- C1 (amended): all identifiers of a linearized trace of `GenerateUint64ID`
calls on one `NewGenerator`-built generator are pairwise distinct, provided the
trace has at most `2^64` calls, every timestamp reading lies in one `2^42`-ms
window, and any two calls that read the same millisecond timestamp are fewer
than `2^14` apart in the atomic-counter order. -/
theorem trace_ids_pairwise_distinct (hostnameRes ipRes : Option String)
    (rHost rIP : Nat → Nat) (gc : Nat) (rng : Nat → Nat) (ts : Nat → Nat) (n T0 : Nat)
    (hn : n ≤ 2 ^ 64)
    (hwindow : ∀ k, k < n → T0 ≤ ts (k + 1) ∧ ts (k + 1) < T0 + 2 ^ 42)
    (hrate : ∀ i j, i < j → j < n → ts (i + 1) = ts (j + 1) → j - i < 2 ^ 14) :
    ∀ i j, i < j → j < n →
      (genTrace (newGenerator hostnameRes ipRes rHost rIP gc rng).1 ts n).1.get? i ≠
      (genTrace (newGenerator hostnameRes ipRes rHost rIP gc rng).1 ts n).1.get? j := by
  intro i j hij hjn heq
  have hm := newGenerator_machineID_lt hostnameRes ipRes rHost rIP gc rng
  have hinst := newGenerator_instanceID_lt hostnameRes ipRes rHost rIP gc rng
  have hc0 := newGenerator_counter hostnameRes ipRes rHost rIP gc rng
  have hclt : (newGenerator hostnameRes ipRes rHost rIP gc rng).1.counter < U64 := by
    rw [hc0]; show 0 < 2 ^ 64; positivity
  have hin : i < n := by omega
  rw [genTrace_get _ _ hclt n i hin, genTrace_get _ _ hclt n j hjn] at heq
  have hids : nthId (newGenerator hostnameRes ipRes rHost rIP gc rng).1 ts i =
      nthId (newGenerator hostnameRes ipRes rHost rIP gc rng).1 ts j :=
    Option.some_injective _ heq
  have hkU : i < U64 ∧ j < U64 := by
    constructor <;> · show _ < 2 ^ 64; omega
  rw [nthId_eq _ _ _ hm hinst hc0 hkU.1, nthId_eq _ _ _ hm hinst hc0 hkU.2] at hids
  have hwi := hwindow i hin
  have hwj := hwindow j hjn
  have hmods : ts (i + 1) % 2 ^ 42 = ts (j + 1) % 2 ^ 42 ∧
      (i + 1) % 2 ^ 14 = (j + 1) % 2 ^ 14 := by
    constructor <;> omega
  have hts : ts (i + 1) = ts (j + 1) := by omega
  have := hrate i j hij hjn hts
  omega

set_option maxRecDepth 40000 in
/-- C1 counterexample: a trace of `16385` calls on one generator, all reading
the same millisecond timestamp (possible for concurrent callers, and
`16385 ≤ 2^14 ×` any practical timestamp range), repeats an identifier: calls
`1` and `16385` produce the same value, refuting the claim that a total-count
bound alone guarantees pairwise distinctness. -/
theorem trace_collision_counterexample :
    (0 : Nat) ≠ 16384 ∧
    (genTrace (newGenerator (some "h") (some "1.2.3.4") (fun _ => 0) (fun _ => 0) 0
        (fun _ => 0)).1 (fun _ => 1700000000000) 16385).1.get? 0 =
    (genTrace (newGenerator (some "h") (some "1.2.3.4") (fun _ => 0) (fun _ => 0) 0
        (fun _ => 0)).1 (fun _ => 1700000000000) 16385).1.get? 16384 := by
  have hclt : (newGenerator (some "h") (some "1.2.3.4") (fun _ => 0) (fun _ => 0) 0
      (fun _ => 0)).1.counter < U64 := by
    show (0 : Nat) < 2 ^ 64; positivity
  refine ⟨by decide, ?_⟩
  rw [genTrace_get _ _ hclt 16385 0 (by norm_num), genTrace_get _ _ hclt 16385 16384 (by norm_num)]
  decide

/-- C6: `nextCounter` atomically increments the per-generator counter and
returns the new value (the updated generator stores exactly the returned
value), and for consecutive calls to one `NewGenerator`-built generator the
sequence fields of the produced identifiers are strictly increasing until the
14-bit field wraps (i.e. while the call index stays below `2^14 - 1`). -/
theorem counter_increment_and_seq_monotone (hostnameRes ipRes : Option String)
    (rHost rIP : Nat → Nat) (gc : Nat) (rng : Nat → Nat) (ts : Nat → Nat) (i j : Nat)
    (hij : i < j) (hwrap : j + 1 < 2 ^ 14) :
    (∀ g : IDGenerator, (nextCounter g).1 = (g.counter + 1) % 2 ^ 64 ∧
      (nextCounter g).2.counter = (nextCounter g).1) ∧
    extractCounter (nthId (newGenerator hostnameRes ipRes rHost rIP gc rng).1 ts i) <
      extractCounter (nthId (newGenerator hostnameRes ipRes rHost rIP gc rng).1 ts j) := by
  constructor
  · intro g
    exact ⟨rfl, rfl⟩
  · have hm := newGenerator_machineID_lt hostnameRes ipRes rHost rIP gc rng
    have hinst := newGenerator_instanceID_lt hostnameRes ipRes rHost rIP gc rng
    have hc0 := newGenerator_counter hostnameRes ipRes rHost rIP gc rng
    have hiU : i < U64 := by show _ < 2 ^ 64; omega
    have hjU : j < U64 := by show _ < 2 ^ 64; omega
    rw [nthId_eq _ _ _ hm hinst hc0 hiU, nthId_eq _ _ _ hm hinst hc0 hjU]
    unfold extractCounter MaxCounter
    rw [and_0x3fff, and_0x3fff]
    omega

/-- C6 witness: concrete instantiation at calls `0 < 1` of a concretely
constructed generator. -/
theorem counter_increment_and_seq_monotone_witness :
    (0 : Nat) < 1 ∧ 1 + 1 < 2 ^ 14 ∧
    ((∀ g : IDGenerator, (nextCounter g).1 = (g.counter + 1) % 2 ^ 64 ∧
        (nextCounter g).2.counter = (nextCounter g).1) ∧
      extractCounter (nthId (newGenerator (some "h") (some "1.2.3.4") (fun _ => 0) (fun _ => 0) 0
          (fun _ => 0)).1 (fun _ => 1700000000000) 0) <
        extractCounter (nthId (newGenerator (some "h") (some "1.2.3.4") (fun _ => 0) (fun _ => 0) 0
            (fun _ => 0)).1 (fun _ => 1700000000000) 1)) :=
  ⟨by norm_num, by norm_num,
    counter_increment_and_seq_monotone (some "h") (some "1.2.3.4") (fun _ => 0) (fun _ => 0) 0
      (fun _ => 0) (fun _ => 1700000000000) 0 1 (by norm_num) (by norm_num)⟩

set_option maxRecDepth 40000 in
/-- C4 counterexample: with successful lookups (hostname `"host8"`, IP
`"10.0.0.1"`), the SHA-1-derived hash value reduced to the 4-bit machine field
is exactly zero, and the constructed generator's machine discriminator is `0`:
no zero-value replacement happens on the hash path. -/
theorem machine_zero_counterexample :
    hashToUint64 ("host8" ++ "10.0.0.1") &&& MaxMachineID = 0 ∧
    (newGenerator (some "host8") (some "10.0.0.1") (fun _ => 0) (fun _ => 0) 0
      (fun _ => 0)).1.machineID = 0 := by
  exact ⟨by decide, by decide⟩

/-- C4 (amended): the machine-discriminator derivation applies no zero-value
replacement: whenever the hostname and IP lookups succeed (hostname
non-empty), the constructed generator's machine discriminator is exactly the
hash value reduced into the machine field width — also when that value is
zero. -/
theorem machineID_is_reduced_hash (host ip : String) (rHost rIP : Nat → Nat)
    (gc : Nat) (rng : Nat → Nat) (hne : host ≠ "") :
    (newGenerator (some host) (some ip) rHost rIP gc rng).1.machineID =
      hashToUint64 (host ++ ip) % 16 := by
  rw [newGenerator_machineID]
  show hashToUint64 ((if host = "" then generateFallbackString rHost 10 else host) ++ ip) % 16 = _
  rw [if_neg hne]

set_option maxRecDepth 40000 in
/-- C4 witness: the amended statement applied at the concrete zero-hash
environment. -/
theorem machineID_is_reduced_hash_witness :
    "host8" ≠ "" ∧
    (newGenerator (some "host8") (some "10.0.0.1") (fun _ => 0) (fun _ => 0) 0
      (fun _ => 0)).1.machineID = hashToUint64 ("host8" ++ "10.0.0.1") % 16 :=
  ⟨by decide, machineID_is_reduced_hash "host8" "10.0.0.1" (fun _ => 0) (fun _ => 0) 0
    (fun _ => 0) (by decide)⟩

/-- C8: `NewGenerator` assigns each generator's instance discriminator by
atomically incrementing the one process-wide counter and truncating the
incremented value to 4 bits, so two generators created back-to-back
(consecutive increments) receive different instance discriminators mod 16. -/
theorem back_to_back_instance_ids (h1 ip1 h2 ip2 : Option String)
    (rH1 rIP1 rH2 rIP2 rng1 rng2 : Nat → Nat) (gc : Nat) :
    (newGenerator h1 ip1 rH1 rIP1 gc rng1).1.instanceID = (gc + 1) % 2 ^ 64 % 16 ∧
    (newGenerator h2 ip2 rH2 rIP2 (newGenerator h1 ip1 rH1 rIP1 gc rng1).2 rng2).1.instanceID
      = ((gc + 1) % 2 ^ 64 + 1) % 2 ^ 64 % 16 ∧
    (newGenerator h1 ip1 rH1 rIP1 gc rng1).1.instanceID ≠
      (newGenerator h2 ip2 rH2 rIP2 (newGenerator h1 ip1 rH1 rIP1 gc rng1).2 rng2).1.instanceID := by
  rw [newGenerator_snd h1 ip1 rH1 rIP1 gc rng1]
  simp only [U64]
  have e1 := newGenerator_instanceID h1 ip1 rH1 rIP1 gc rng1
  have e2 := newGenerator_instanceID h2 ip2 rH2 rIP2 ((gc + 1) % 2 ^ 64) rng2
  simp only [U64] at e1 e2
  refine ⟨e1, e2, ?_⟩
  rw [e1, e2]
  omega

theorem nthGeneratorCounter_eq : ∀ n, nthGeneratorCounter n = n % 2 ^ 64
  | 0 => rfl
  | n + 1 => by
    show (nthGeneratorCounter n + 1) % U64 = (n + 1) % 2 ^ 64
    rw [nthGeneratorCounter_eq n]
    show (n % 2 ^ 64 + 1) % 2 ^ 64 = _
    omega

/-- C10: the process-wide instance counter starts at `0` and `NewGenerator`
uses the value after increment, so the first generator constructed in a
process (the eagerly built package default used by `UniqID`/`UniqUID`) gets
instance discriminator `1`; the (n+1)-st construction sees counter
`nthGeneratorCounter n`, stores back `nthGeneratorCounter (n+1)`, and gets
instance discriminator `(n+1) mod 16`, which is `0` exactly when `16 ∣ (n+1)`
(the 16th, 32nd, … generator). -/
theorem first_generator_instance_one (hostnameRes ipRes : Option String)
    (rHost rIP : Nat → Nat) (rng : Nat → Nat) (n : Nat) :
    (newGenerator hostnameRes ipRes rHost rIP 0 rng).1.instanceID = 1 ∧
    (newGenerator hostnameRes ipRes rHost rIP (nthGeneratorCounter n) rng).2 =
      nthGeneratorCounter (n + 1) ∧
    (newGenerator hostnameRes ipRes rHost rIP (nthGeneratorCounter n) rng).1.instanceID =
      (n + 1) % 16 ∧
    ((n + 1) % 16 = 0 ↔ 16 ∣ (n + 1)) := by
  refine ⟨?_, rfl, ?_, ?_⟩
  · rw [newGenerator_instanceID]
    decide
  · rw [newGenerator_instanceID, nthGeneratorCounter_eq n]
    show (n % 2 ^ 64 + 1) % 2 ^ 64 % 16 = (n + 1) % 16
    omega
  · omega

theorem generateFallbackString_length (r : Nat → Nat) (len : Nat) :
    (generateFallbackString r len).length = len := by
  show ((List.range len).map fun i => charSetChars.getD (r i % charSetChars.length) ' ').length
    = len
  rw [List.length_map, List.length_range]

theorem generateRandomSuffix_length (g : IDGenerator) (len : Nat) :
    ((generateRandomSuffix g len).1).length = len := by
  show ((List.range len).map fun i => charSetChars.getD (g.rng i % charSetChars.length) ' ').length
    = len
  rw [List.length_map, List.length_range]

theorem toHexDigits_length_pos (n : Nat) : 0 < (toHexDigits n).length := by
  rw [toHexDigits]
  by_cases h : n < 16
  · rw [if_pos h]
    simp
  · rw [if_neg h]
    simp

theorem generateStringID_length (g : IDGenerator) (ts : Nat) :
    ((generateStringID g ts).1).length =
      (toHexDigits (generateUint64ID g ts).1).length + 8 := by
  show (formatUint16 (generateUint64ID g ts).1 ++
    (generateRandomSuffix (generateUint64ID g ts).2 RandomSuffixLength).1).length = _
  rw [String.length_append, generateRandomSuffix_length]
  rfl

/-- C9: no core operation returns or raises an error: for every environment
outcome — hostname lookup errored (`none`) or returned any string (including
the empty string), IP lookup errored or succeeded — generator construction and
both generation operations return well-formed results; lookup failures are
absorbed by substituting fixed-length (10-character) random fallback strings
into the hash input. -/
theorem no_error_results (hostnameRes ipRes : Option String)
    (rHost rIP rng r : Nat → Nat) (gc ts c len : Nat) :
    (generateFallbackString rHost len).length = len ∧
    (newGenerator hostnameRes ipRes rHost rIP gc rng).1.machineID ≤ 15 ∧
    (newGenerator hostnameRes ipRes rHost rIP gc rng).1.instanceID ≤ 15 ∧
    generateMachineID none none rHost rIP =
      hashToUint64 (generateFallbackString rHost 10 ++ generateFallbackString rIP 10) ∧
    (generateUint64ID { (newGenerator hostnameRes ipRes rHost rIP gc rng).1 with
        counter := c, rng := r } ts).1 < 2 ^ 64 ∧
    8 < ((generateStringID { (newGenerator hostnameRes ipRes rHost rIP gc rng).1 with
        counter := c, rng := r } ts).1).length := by
  have hm := newGenerator_machineID_lt hostnameRes ipRes rHost rIP gc rng
  have hinst := newGenerator_instanceID_lt hostnameRes ipRes rHost rIP gc rng
  refine ⟨generateFallbackString_length rHost len, by omega, by omega, rfl, ?_, ?_⟩
  · rw [generateUint64ID_fst { (newGenerator hostnameRes ipRes rHost rIP gc rng).1 with
      counter := c, rng := r } ts hm hinst]
    show (newGenerator hostnameRes ipRes rHost rIP gc rng).1.machineID * 2 ^ 60 +
      (newGenerator hostnameRes ipRes rHost rIP gc rng).1.instanceID * 2 ^ 56 +
      ts % 2 ^ 42 * 2 ^ 14 + (c + 1) % 2 ^ 14 < 2 ^ 64
    omega
  · rw [generateStringID_length]
    have := toHexDigits_length_pos
      (generateUint64ID { (newGenerator hostnameRes ipRes rHost rIP gc rng).1 with
        counter := c, rng := r } ts).1
    omega

/-! ## Textual-format lemmas -/

theorem hexDigitValue_charSet (d : Nat) (hd : d < 16) :
    hexDigitValue (charSetChars.getD d ' ') = some d := by
  interval_cases d <;> decide

theorem hexToNat_append (cs : List Char) (c : Char) :
    hexToNat (cs ++ [c]) = hexToNat cs * 16 + (hexDigitValue c).getD 0 := by
  unfold hexToNat
  rw [List.foldl_append]
  rfl

theorem hexToNat_toHexDigits (n : Nat) : hexToNat (toHexDigits n) = n := by
  induction n using Nat.strong_induction_on with
  | _ n ih =>
    rw [toHexDigits]
    by_cases h : n < 16
    · rw [if_pos h]
      show 0 * 16 + (hexDigitValue (charSetChars.getD n ' ')).getD 0 = n
      rw [hexDigitValue_charSet n h]
      simp
    · rw [if_neg h, hexToNat_append, ih (n / 16) (Nat.div_lt_self (by omega) (by omega)),
        hexDigitValue_charSet (n % 16) (Nat.mod_lt _ (by omega))]
      show n / 16 * 16 + n % 16 = n
      omega

theorem toHexDigits_all_hex (n : Nat) : ∀ ch ∈ toHexDigits n, isHexDigitChar ch = true := by
  induction n using Nat.strong_induction_on with
  | _ n ih =>
    rw [toHexDigits]
    by_cases h : n < 16
    · rw [if_pos h]
      intro ch hch
      rw [List.mem_singleton] at hch
      subst hch
      unfold isHexDigitChar
      rw [hexDigitValue_charSet n h]
      rfl
    · rw [if_neg h]
      intro ch hch
      rw [List.mem_append] at hch
      rcases hch with hch | hch
      · exact ih (n / 16) (Nat.div_lt_self (by omega) (by omega)) ch hch
      · rw [List.mem_singleton] at hch
        subst hch
        unfold isHexDigitChar
        rw [hexDigitValue_charSet (n % 16) (Nat.mod_lt _ (by omega))]
        rfl

theorem toHexDigits_ne_nil (n : Nat) : toHexDigits n ≠ [] := by
  rw [toHexDigits]
  by_cases h : n < 16
  · rw [if_pos h]
    simp
  · rw [if_neg h]
    simp

theorem toHexDigits_length_le : ∀ k n, 0 < k → n < 16 ^ k → (toHexDigits n).length ≤ k
  | 0, _, hk, _ => absurd hk (by omega)
  | k + 1, n, _, hn => by
    rw [toHexDigits]
    by_cases h : n < 16
    · rw [if_pos h]
      simp
    · rw [if_neg h, List.length_append]
      have hk1 : 0 < k := by
        rcases Nat.eq_zero_or_pos k with h0 | h0
        · subst h0
          norm_num at hn
          omega
        · exact h0
      have hd : n / 16 < 16 ^ k := by
        apply Nat.div_lt_of_lt_mul
        calc n < 16 ^ (k + 1) := hn
          _ = 16 * 16 ^ k := by ring
      have := toHexDigits_length_le k (n / 16) hk1 hd
      simp only [List.length_cons, List.length_nil]
      omega

theorem charSet_getD_mem (x : Nat) :
    charSetChars.getD (x % charSetChars.length) ' ' ∈ charSetChars := by
  have hx : x % charSetChars.length < charSetChars.length := Nat.mod_lt _ (by decide)
  rw [List.getD_eq_getElem?_getD, List.getElem?_eq_getElem hx]
  exact List.getElem_mem hx

/-- The full textual-format specification of `GenerateStringID` for a
generator with in-range discriminators. -/
theorem generateStringID_spec (g : IDGenerator) (ts : Nat)
    (hm : g.machineID < 16) (hi : g.instanceID < 16) :
    (((generateStringID g ts).1).data.take (((generateStringID g ts).1).data.length - 8)
        = toHexDigits (generateUint64ID g ts).1) ∧
    toHexDigits (generateUint64ID g ts).1 ≠ [] ∧
    (toHexDigits (generateUint64ID g ts).1).length ≤ 16 ∧
    (∀ ch ∈ toHexDigits (generateUint64ID g ts).1, isHexDigitChar ch = true) ∧
    hexToNat (toHexDigits (generateUint64ID g ts).1) = (generateUint64ID g ts).1 ∧
    (generateUint64ID g ts).1 < 2 ^ 64 ∧
    (((generateStringID g ts).1).data.drop (((generateStringID g ts).1).data.length - 8)).length
        = 8 ∧
    ∀ ch ∈ ((generateStringID g ts).1).data.drop (((generateStringID g ts).1).data.length - 8),
      ch ∈ charSetChars := by
  have hid : (generateUint64ID g ts).1 < 2 ^ 64 := by
    rw [generateUint64ID_fst g ts hm hi]
    omega
  have hdata : ((generateStringID g ts).1).data
      = toHexDigits (generateUint64ID g ts).1 ++
        ((List.range 8).map fun i =>
          charSetChars.getD ((generateUint64ID g ts).2.rng i % charSetChars.length) ' ') := rfl
  have hsuf : ((List.range 8).map fun i =>
      charSetChars.getD ((generateUint64ID g ts).2.rng i % charSetChars.length) ' ').length
      = 8 := by
    rw [List.length_map, List.length_range]
  have hlen : ((generateStringID g ts).1).data.length
      = (toHexDigits (generateUint64ID g ts).1).length + 8 := by
    rw [hdata, List.length_append, hsuf]
  refine ⟨?_, toHexDigits_ne_nil _, ?_, toHexDigits_all_hex _, hexToNat_toHexDigits _, hid,
    ?_, ?_⟩
  · rw [hlen, hdata]
    exact List.take_left' (by omega)
  · apply toHexDigits_length_le 16 _ (by norm_num)
    calc (generateUint64ID g ts).1 < 2 ^ 64 := hid
      _ = 16 ^ 16 := by norm_num
  · rw [hlen, hdata, List.drop_left' (by omega), hsuf]
  · rw [hlen, hdata, List.drop_left' (by omega)]
    intro ch hch
    rw [List.mem_map] at hch
    obtain ⟨i, _, hieq⟩ := hch
    rw [← hieq]
    exact charSet_getD_mem _

/-- C7: every textual identifier produced by `GenerateStringID` of a
`NewGenerator`-built generator (in any reachable counter/rng state) is the
variable-length lowercase hexadecimal encoding of the underlying numeric
identifier — nonempty, at most 16 characters, no leading-zero padding —
immediately followed by exactly 8 characters each drawn from the 36-symbol
`CharSet` alphabet; the part before the final 8 characters parses in base 16
to exactly the numeric identifier, which fits in an unsigned 64-bit value. -/
theorem string_id_format (hostnameRes ipRes : Option String)
    (rHost rIP rng r : Nat → Nat) (gc ts c : Nat) :
    (((generateStringID (reachableGenerator hostnameRes ipRes rHost rIP gc rng c r) ts).1).data.take
        ((((generateStringID (reachableGenerator hostnameRes ipRes rHost rIP gc rng c r)
          ts).1).data.length - 8))
        = toHexDigits
            (generateUint64ID (reachableGenerator hostnameRes ipRes rHost rIP gc rng c r) ts).1) ∧
    toHexDigits (generateUint64ID (reachableGenerator hostnameRes ipRes rHost rIP gc rng c r)
        ts).1 ≠ [] ∧
    (toHexDigits (generateUint64ID (reachableGenerator hostnameRes ipRes rHost rIP gc rng c r)
        ts).1).length ≤ 16 ∧
    (∀ ch ∈ toHexDigits (generateUint64ID (reachableGenerator hostnameRes ipRes rHost rIP gc rng
        c r) ts).1, isHexDigitChar ch = true) ∧
    hexToNat (toHexDigits (generateUint64ID (reachableGenerator hostnameRes ipRes rHost rIP gc
        rng c r) ts).1)
      = (generateUint64ID (reachableGenerator hostnameRes ipRes rHost rIP gc rng c r) ts).1 ∧
    (generateUint64ID (reachableGenerator hostnameRes ipRes rHost rIP gc rng c r) ts).1
      < 2 ^ 64 ∧
    (((generateStringID (reachableGenerator hostnameRes ipRes rHost rIP gc rng c r) ts).1).data.drop
        ((((generateStringID (reachableGenerator hostnameRes ipRes rHost rIP gc rng c r)
          ts).1).data.length - 8))).length = 8 ∧
    ∀ ch ∈ (((generateStringID (reachableGenerator hostnameRes ipRes rHost rIP gc rng c r)
          ts).1).data.drop
        ((((generateStringID (reachableGenerator hostnameRes ipRes rHost rIP gc rng c r)
          ts).1).data.length - 8))),
      ch ∈ charSetChars :=
  generateStringID_spec _ ts
    (newGenerator_machineID_lt hostnameRes ipRes rHost rIP gc rng)
    (newGenerator_instanceID_lt hostnameRes ipRes rHost rIP gc rng)

/-- C1 witness: concrete instantiation of the amended uniqueness theorem on a
two-call trace with strictly increasing timestamps. -/
theorem trace_ids_pairwise_distinct_witness :
    (genTrace (newGenerator (some "h") (some "1.2.3.4") (fun _ => 0) (fun _ => 0) 0
        (fun _ => 0)).1 (fun k => 1700000000000 + k) 2).1.get? 0 ≠
    (genTrace (newGenerator (some "h") (some "1.2.3.4") (fun _ => 0) (fun _ => 0) 0
        (fun _ => 0)).1 (fun k => 1700000000000 + k) 2).1.get? 1 :=
  trace_ids_pairwise_distinct (some "h") (some "1.2.3.4") (fun _ => 0) (fun _ => 0) 0
    (fun _ => 0) (fun k => 1700000000000 + k) 2 1700000000000
    (by norm_num)
    (fun k hk => by dsimp only; constructor <;> omega)
    (fun i j hij hjn hts => by omega)
    0 1 (by norm_num) (by norm_num)

end Tsuniqid
